import Mathlib

/-!
Verification of the kvrocks search-query IR (`src/search/ir.h`) and the
redis-query syntax-to-IR transformation exercised by
`tests/cppunit/redis_query_parser_test.cc`.

The IR node taxonomy, the numeric-comparison operator algebra, the `Dump`
renderings, and the checked downcast `Node::As` are embedded from
`src/search/ir.h`.  The parser itself (`redis_query_transformer.h`) is not
part of the provided sources; it is modelled from the spec's grammar
(spec section 4.4) and checked against every concrete input/output pair of
the in-repository test file, which is authoritative where it and the spec
disagree.
-/

namespace kqir

/-- Comparison operators of `NumericCompareExpr`, from the
`KQIR_NUMERIC_COMPARE_OPS` X-macro in `ir.h`:
`X(EQ, =, NE, EQ) X(NE, !=, EQ, NE) X(LT, <, GET, GT) X(LET, <=, GT, GET)
 X(GT, >, LET, LT) X(GET, >=, LT, LET)`.
Source names kept: `LET` is `<=` and `GET` is `>=`. -/
inductive Op where
  | EQ
  | NE
  | LT
  | LET
  | GT
  | GET
deriving DecidableEq, Repr

/-- `NumericCompareExpr::ToOperator`: second column of the X-macro. -/
def ToOperator : Op → String
  | .EQ => "="
  | .NE => "!="
  | .LT => "<"
  | .LET => "<="
  | .GT => ">"
  | .GET => ">="

/-- `NumericCompareExpr::FromOperator`: inverse lookup over the same table,
`std::nullopt` when the symbol is not one of the six. -/
def FromOperator (op : String) : Option Op :=
  if op = "=" then some .EQ
  else if op = "!=" then some .NE
  else if op = "<" then some .LT
  else if op = "<=" then some .LET
  else if op = ">" then some .GT
  else if op = ">=" then some .GET
  else none

/-- `NumericCompareExpr::Negative`: third column of the X-macro. -/
def Negative : Op → Op
  | .EQ => .NE
  | .NE => .EQ
  | .LT => .GET
  | .LET => .GT
  | .GT => .LET
  | .GET => .LT

/-- `NumericCompareExpr::Flip`: fourth column of the X-macro. -/
def Flip : Op → Op
  | .EQ => .EQ
  | .NE => .NE
  | .LT => .GT
  | .LET => .GET
  | .GT => .LT
  | .GET => .LET

/-- Modelled from the spec: the value of a `NumericLiteral` is a C++ double
rendered by `fmt::format("{}", val)` (shortest form, e.g. `1`, `2.5`).  The
model keeps the decimal digits of the parsed token in a normal form (no
leading zeros on the integer part, no trailing zeros on the fraction) so
that distinct spellings of one value dump identically, as the double does. -/
structure NumLit where
  neg : Bool
  intDigits : List Char
  fracDigits : List Char
deriving DecidableEq, Repr

/-- Render a `NumLit` the way `fmt` renders the double: optional `-` sign,
integer digits, and `.fraction` only when the fraction is nonzero. -/
def dumpNum (n : NumLit) : String :=
  String.mk ((if n.neg then ['-'] else []) ++ n.intDigits ++
    (if n.fracDigits.isEmpty then [] else '.' :: n.fracDigits))

/-- The boolean query-expression subtree of the `ir.h` node taxonomy
(`QueryExpr` and its descendants), as a closed sum.  Field and tag
payloads are the strings held by the `FieldRef` / `StringLiteral`
children in the source. -/
inductive QueryExpr where
  | boolLiteral (val : Bool)
  | tagContain (field : String) (tag : String)
  | numericCompare (op : Op) (field : String) (num : NumLit)
  | notExpr (inner : QueryExpr)
  | andExpr (inners : List QueryExpr)
  | orExpr (inners : List QueryExpr)
deriving Repr

/-- `util::EscapeString` as used by `StringLiteral::Dump`: internal quotes
and backslashes are escaped. -/
def escapeString (s : String) : String :=
  String.mk (s.data.flatMap fun c =>
    if c = '"' then ['\\', '"']
    else if c = '\\' then ['\\', '\\']
    else [c])

mutual

/-- `Dump` of each query node, from `ir.h`:
`BoolLiteral` renders `true`/`false`; `TagContainExpr` renders
`<field> hastag <quoted-tag>`; `NumericCompareExpr` renders
`<field> <op> <num>`; `NotExpr` renders `not <inner>`; `AndExpr`/`OrExpr`
render `(and ...)`/`(or ...)` with children joined by `", "`. -/
def Dump : QueryExpr → String
  | .boolLiteral b => if b then "true" else "false"
  | .tagContain f t => f ++ " hastag \"" ++ escapeString t ++ "\""
  | .numericCompare op f n => f ++ " " ++ ToOperator op ++ " " ++ dumpNum n
  | .notExpr e => "not " ++ Dump e
  | .andExpr l => "(and " ++ dumpJoin l ++ ")"
  | .orExpr l => "(or " ++ dumpJoin l ++ ")"

/-- `util::StringJoin` over children's `Dump`, separator `", "`. -/
def dumpJoin : List QueryExpr → String
  | [] => ""
  | [e] => Dump e
  | e :: rest => Dump e ++ ", " ++ dumpJoin rest

end

/-! ### The redis-query parser

Modelled from the spec: `redis_query_transformer.h` / `ParseToIR` is not
among the provided sources (only its test file is).  The grammar below
follows spec section 4.4 — `|`-separated AND-groups of space-separated
atoms; atoms are `-atom`, `(query)`, `*`, `@field:[lo hi]` or
`@field:{t1|t2|...}`; whitespace is tolerated around `:` and inside
brackets and tag lists — and reproduces every accepted/rejected input of
`tests/cppunit/redis_query_parser_test.cc`, which is authoritative: in
particular the exclusive-bound marker `(` applies only to finite numeric
bounds (the test rejects `@a:[(inf 1]`).  Parsing is fuel-indexed
recursive descent; failure is the single message `"invalid syntax"`. -/

def isWsChar (c : Char) : Bool :=
  c = ' ' || c = '\t' || c = '\n' || c = '\r'

/-- Drop leading whitespace. -/
def skipWs : List Char → List Char
  | [] => []
  | c :: r => if isWsChar c then skipWs r else c :: r

/-- Characters allowed in bare field names and bare tag tokens. -/
def isIdentChar (c : Char) : Bool := c.isAlphanum || c = '_'

/-- Longest identifier prefix and the remainder. -/
def takeIdent : List Char → List Char × List Char
  | [] => ([], [])
  | c :: r =>
    if isIdentChar c then
      let p := takeIdent r
      (c :: p.1, p.2)
    else ([], c :: r)

/-- A nonempty identifier (field name / bare tag token). -/
def parseField : List Char → Option (String × List Char)
  | [] => none
  | c :: r =>
    if isIdentChar c then
      let p := takeIdent r
      some (String.mk (c :: p.1), p.2)
    else none

/-- Longest digit prefix and the remainder. -/
def takeDigits : List Char → List Char × List Char
  | [] => ([], [])
  | c :: r =>
    if c.isDigit then
      let p := takeDigits r
      (c :: p.1, p.2)
    else ([], c :: r)

/-- Drop leading zeros but keep at least one digit. -/
def stripLeadingZeros : List Char → List Char
  | '0' :: c :: r => stripLeadingZeros (c :: r)
  | l => l

def dropZeros : List Char → List Char
  | '0' :: r => dropZeros r
  | l => l

/-- Drop trailing zeros (of a fraction part). -/
def stripTrailingZeros (l : List Char) : List Char :=
  (dropZeros l.reverse).reverse

/-- A signed decimal number: optional `+`/`-`, one or more digits, and an
optional `.digits` fraction; the digits are stored normalized, mirroring
the parse-to-double-then-format pipeline of the source. -/
def parseNum (l : List Char) : Option (NumLit × List Char) :=
  let sign : Bool × List Char :=
    match l with
    | '-' :: r => (true, r)
    | '+' :: r => (false, r)
    | _ => (false, l)
  match sign.2 with
  | [] => none
  | c :: r =>
    if c.isDigit then
      let p := takeDigits r
      let frac : List Char × List Char :=
        match p.2 with
        | '.' :: d :: fr =>
          if d.isDigit then
            let q := takeDigits fr
            (d :: q.1, q.2)
          else ([], p.2)
        | _ => ([], p.2)
      some (⟨sign.1, stripLeadingZeros (c :: p.1), stripTrailingZeros frac.1⟩,
        frac.2)
    else none

/-- One bound of a range predicate: infinite, inclusive finite, or (with a
`(` prefix) exclusive finite. -/
inductive Bound where
  | inf
  | incl (n : NumLit)
  | excl (n : NumLit)

/-- One range bound: `(number` (exclusive), signed `inf`, or a number. -/
def parseBound (l : List Char) : Option (Bound × List Char) :=
  match l with
  | '(' :: r => (parseNum r).map fun p => (Bound.excl p.1, p.2)
  | _ =>
    let afterSign : List Char :=
      match l with
      | '-' :: r => r
      | '+' :: r => r
      | _ => l
    match afterSign with
    | 'i' :: 'n' :: 'f' :: r => some (Bound.inf, r)
    | _ => (parseNum l).map fun p => (Bound.incl p.1, p.2)

/-- Construction rule for `@field:[lo hi]` (spec section 4.4): a finite
lower bound gives `>=`/`>`, a finite upper bound gives `<=`/`<`, both
finite combine into a two-child `AndExpr`, an infinite bound contributes
nothing, and two infinite bounds give `BoolLiteral(true)`. -/
def buildRange (f : String) (lo hi : Bound) : QueryExpr :=
  match lo, hi with
  | .inf, .inf => .boolLiteral true
  | .inf, .incl n => .numericCompare .LET f n
  | .inf, .excl n => .numericCompare .LT f n
  | .incl n, .inf => .numericCompare .GET f n
  | .excl n, .inf => .numericCompare .GT f n
  | .incl a, .incl b => .andExpr [.numericCompare .GET f a, .numericCompare .LET f b]
  | .incl a, .excl b => .andExpr [.numericCompare .GET f a, .numericCompare .LT f b]
  | .excl a, .incl b => .andExpr [.numericCompare .GT f a, .numericCompare .LET f b]
  | .excl a, .excl b => .andExpr [.numericCompare .GT f a, .numericCompare .LT f b]

/-- Rest of a quoted string after the opening `"`, unescaping `\c` to `c`. -/
def parseQuotedRest : List Char → Option (List Char × List Char)
  | [] => none
  | '"' :: r => some ([], r)
  | '\\' :: c :: r => (parseQuotedRest r).map fun p => (c :: p.1, p.2)
  | c :: r => (parseQuotedRest r).map fun p => (c :: p.1, p.2)

/-- One tag: a quoted string or a bare token. -/
def parseTagItem (l : List Char) : Option (String × List Char) :=
  match l with
  | '"' :: r => (parseQuotedRest r).map fun p => (String.mk p.1, p.2)
  | _ => parseField l

/-- Zero or more further `| tag` items; a `|` not followed by a tag is left
unconsumed (the enclosing `}` check then rejects it). -/
def parseTagsRest : Nat → List Char → List String × List Char
  | 0, l => ([], l)
  | fuel + 1, l =>
    match skipWs l with
    | '|' :: r =>
      match parseTagItem (skipWs r) with
      | some (t, r2) =>
        let p := parseTagsRest fuel r2
        (t :: p.1, p.2)
      | none => ([], l)
    | _ => ([], l)

/-- Tag-predicate construction: one `TagContainExpr` per tag, a single tag
stays unwrapped, two or more fold into one `OrExpr` in source order. -/
def buildTags (f : String) (ts : List String) : QueryExpr :=
  match ts with
  | [t] => .tagContain f t
  | _ => .orExpr (ts.map fun t => .tagContain f t)

/-- Body of `@field:{...}` after the opening brace. -/
def parseTagPred (fuel : Nat) (f : String) (l : List Char) :
    Option (QueryExpr × List Char) :=
  match parseTagItem (skipWs l) with
  | some (t, r) =>
    let p := parseTagsRest fuel r
    match skipWs p.2 with
    | '}' :: r2 => some (buildTags f (t :: p.1), r2)
    | _ => none
  | none => none

/-- Body of `@field:[...]` after the opening bracket: exactly two bounds
then `]`. -/
def parseRangePred (f : String) (l : List Char) :
    Option (QueryExpr × List Char) :=
  match parseBound (skipWs l) with
  | some (lo, r1) =>
    match parseBound (skipWs r1) with
    | some (hi, r2) =>
      match skipWs r2 with
      | ']' :: r3 => some (buildRange f lo hi, r3)
      | _ => none
    | none => none
  | none => none

/-- Fold an AND-group: a lone term stays unwrapped, two or more become one
`AndExpr`. -/
def mkAnd : List QueryExpr → QueryExpr
  | [e] => e
  | l => .andExpr l

/-- Fold an OR-chain: a lone term stays unwrapped, two or more become one
`OrExpr`. -/
def mkOr : List QueryExpr → QueryExpr
  | [e] => e
  | l => .orExpr l

mutual

/-- One atom: `-atom`, `(query)`, `*`, or `@field:` followed by a range or
tag predicate.  Leading whitespace is skipped. -/
def parseAtom : Nat → List Char → Option (QueryExpr × List Char)
  | 0, _ => none
  | fuel + 1, l =>
    match skipWs l with
    | [] => none
    | c :: r =>
      if c = '-' then
        (parseAtom fuel r).map fun p => (QueryExpr.notExpr p.1, p.2)
      else if c = '(' then
        match parseQuery fuel r with
        | some (e, r1) =>
          match skipWs r1 with
          | ')' :: r2 => some (e, r2)
          | _ => none
        | none => none
      else if c = '*' then
        some (.boolLiteral true, r)
      else if c = '@' then
        match parseField r with
        | some (f, r1) =>
          match skipWs r1 with
          | ':' :: r2 =>
            match skipWs r2 with
            | '[' :: r3 => parseRangePred f r3
            | '{' :: r3 => parseTagPred fuel f r3
            | _ => none
          | _ => none
        | none => none
      else none

/-- Zero or more further atoms of the same AND-group. -/
def parseAtomsMore : Nat → List Char → List QueryExpr × List Char
  | 0, l => ([], l)
  | fuel + 1, l =>
    match parseAtom fuel l with
    | some (e, r) =>
      let p := parseAtomsMore fuel r
      (e :: p.1, p.2)
    | none => ([], l)

/-- One AND-group: one or more space-separated atoms, folded by `mkAnd`. -/
def parseAndGroup : Nat → List Char → Option (QueryExpr × List Char)
  | 0, _ => none
  | fuel + 1, l =>
    match parseAtom fuel l with
    | some (e, r) =>
      let p := parseAtomsMore fuel r
      some (mkAnd (e :: p.1), p.2)
    | none => none

/-- Zero or more further `| and-group` items; a `|` not followed by a group
is left unconsumed (the end-of-input check then rejects it). -/
def parseOrRest : Nat → List Char → List QueryExpr × List Char
  | 0, l => ([], l)
  | fuel + 1, l =>
    match skipWs l with
    | '|' :: r =>
      match parseAndGroup fuel r with
      | some (e, r1) =>
        let p := parseOrRest fuel r1
        (e :: p.1, p.2)
      | none => ([], l)
    | _ => ([], l)

/-- One query: `|`-separated AND-groups, folded by `mkOr`. -/
def parseQuery : Nat → List Char → Option (QueryExpr × List Char)
  | 0, _ => none
  | fuel + 1, l =>
    match parseAndGroup fuel l with
    | some (e, r) =>
      let p := parseOrRest fuel r
      some (mkOr (e :: p.1), p.2)
    | none => none

end

/-- Fuel bound: the descent spends at most three fuel units per consumed
character. -/
def fuelFor (l : List Char) : Nat := 4 * (l.length + 1)

/-- `ParseToIR`: parse a whole query; any leftover non-whitespace input or
any structural failure collapses to the single error `"invalid syntax"`. -/
def ParseToIR (s : String) : Except String QueryExpr :=
  let l := s.data
  match parseQuery (fuelFor l) l with
  | some (e, r) =>
    if (skipWs r).isEmpty then Except.ok e else Except.error "invalid syntax"
  | none => Except.error "invalid syntax"

/-- Parse then render: the observable behaviour the test file checks. -/
def ParseDump (s : String) : Except String String := (ParseToIR s).map Dump

deriving instance DecidableEq for Except

/-- Characters able to begin an atom of the query grammar: `-`, `(`, `*`
or `@`. -/
def isAtomStart (c : Char) : Bool := c = '-' || c = '(' || c = '*' || c = '@'

/-- The first character of a string is an identifier character. -/
def headIdentB (s : String) : Bool :=
  match s.data with
  | [] => false
  | c :: _ => isIdentChar c

/-- Invariant of parser results needed at the top node only: the field
name of a comparison or tag predicate begins with an identifier
character (it was parsed by `parseField`). -/
def TopOK : QueryExpr → Prop
  | .tagContain f _ => headIdentB f = true
  | .numericCompare _ f _ => headIdentB f = true
  | _ => True

/-! ### Statement-shape nodes, from `ir.h` -/

/-- `SortBy::Order`. -/
inductive Order where
  | ASC
  | DESC
deriving DecidableEq

/-- `SortBy::OrderToString`. -/
def OrderToString : Order → String
  | .ASC => "asc"
  | .DESC => "desc"

/-- `SortBy`: an order and the field to sort by. -/
structure SortBy where
  order : Order
  field : String

/-- `SortBy::Dump`: `sortby <field>, <asc|desc>`. -/
def SortBy.Dump (s : SortBy) : String :=
  "sortby " ++ s.field ++ ", " ++ OrderToString s.order

/-- `Limit`: offset and count (`size_t` in the source, `Nat` here). -/
structure Limit where
  offset : Nat
  count : Nat

/-- `Limit::Dump`: `limit <offset>, <count>`. -/
def Limit.Dump (l : Limit) : String :=
  "limit " ++ toString l.offset ++ ", " ++ toString l.count

/-- `SelectExpr`: the projected field names (`FieldRef` children). -/
structure SelectExpr where
  fields : List String

/-- `util::StringJoin` with the default `", "` separator. -/
def joinComma : List String → String
  | [] => ""
  | [s] => s
  | s :: rest => s ++ ", " ++ joinComma rest

/-- `SelectExpr::Dump`: `select *` when the field list is empty, otherwise
`select` followed by the comma-joined fields. -/
def SelectExpr.Dump (s : SelectExpr) : String :=
  if s.fields.isEmpty then "select *" else "select " ++ joinComma s.fields

/-- `SearchStmt`: required projection and index, optional query, limit and
sort spec. -/
structure SearchStmt where
  select_expr : SelectExpr
  index : String
  query_expr : Option QueryExpr
  limit : Option Limit
  sort_by : Option SortBy

/-- `SearchStmt::Dump` from `ir.h`: the optional segments are accumulated
into `opt` in the order query, sort, limit, then appended to
`<select> from <index>`. -/
def SearchStmt.Dump (s : SearchStmt) : String :=
  let opt :=
    (match s.query_expr with
     | some q => " where " ++ kqir.Dump q
     | none => "") ++
    (match s.sort_by with
     | some sb => " " ++ sb.Dump
     | none => "") ++
    (match s.limit with
     | some li => " " ++ li.Dump
     | none => "")
  s.select_expr.Dump ++ " from " ++ s.index ++ opt

/-- Spec-side rendering of a search statement, written from the claim's
words alone: exactly `<select> from <index>`, followed in this fixed order
by ` where <query>` only when a query is present, then
` sortby <field>, asc|desc` only when a sort spec is present, then
` limit <offset>, <count>` only when a limit is present. -/
def specStmtRender (s : SearchStmt) : String :=
  ((((s.select_expr.Dump ++ " from ") ++ s.index) ++
    (match s.query_expr with
     | some q => " where " ++ kqir.Dump q
     | none => "")) ++
   (match s.sort_by with
    | some sb => " sortby " ++ sb.field ++ ", " ++ OrderToString sb.order
    | none => "")) ++
  (match s.limit with
   | some li => " limit " ++ toString li.offset ++ ", " ++ toString li.count
   | none => "")

/-! ### The checked downcast `Node::As`, from `ir.h` -/

/-- Concrete (most-derived) node types of the `ir.h` hierarchy. -/
inductive NodeType where
  | FieldRefT
  | StringLiteralT
  | NumericLiteralT
  | BoolLiteralT
  | TagContainT
  | NumericCompareT
  | NotT
  | AndT
  | OrT
  | LimitT
  | SortByT
  | SelectT
  | IndexRefT
  | SearchStmtT
deriving DecidableEq

/-- A target type `T` of `Node::As<T>`: a concrete node type or one of the
abstract bases `Node`, `QueryExpr`, `BoolAtomExpr`. -/
inductive CastTarget where
  | node
  | queryExpr
  | boolAtomExpr
  | concrete (t : NodeType)

/-- Success condition of `dynamic_cast<T*>`: the inheritance relation
declared in `ir.h` (every type derives `Node`; the boolean query nodes
derive `QueryExpr`; the predicate and boolean-literal nodes further derive
`BoolAtomExpr`). -/
def derivedFrom (t : NodeType) : CastTarget → Bool
  | .node => true
  | .queryExpr =>
    t = .TagContainT || t = .NumericCompareT || t = .BoolLiteralT ||
      t = .NotT || t = .AndT || t = .OrT
  | .boolAtomExpr =>
    t = .TagContainT || t = .NumericCompareT || t = .BoolLiteralT
  | .concrete u => t = u

/-- A heap node: its concrete dynamic type and an identity distinguishing
it from every other live node. -/
structure NodeObj where
  ty : NodeType
  id : Nat
deriving DecidableEq

/-- `std::unique_ptr<Node>`-like owner: holds a node or is null. -/
structure UniquePtr where
  ptr : Option NodeObj
deriving DecidableEq

/-- `Node::As<T>` from `ir.h`:
`auto casted = dynamic_cast<T *>(original.get()); if (casted)
original.release(); return std::unique_ptr<T>(casted);`.
The result pairs the returned owner with the state of `original` after the
call; the node object itself is never destroyed by this operation. -/
def As (target : CastTarget) (original : UniquePtr) : UniquePtr × UniquePtr :=
  match original.ptr with
  | some obj =>
    if derivedFrom obj.ty target then (⟨some obj⟩, ⟨none⟩)
    else (⟨none⟩, ⟨some obj⟩)
  | none => (⟨none⟩, ⟨none⟩)

/-! ### Claim theorems -/

/-- Claim C1: a range predicate with two finite bounds builds a 2-child
`AndExpr` of `>=`/`>` (exclusive lower) and `<=`/`<` (exclusive upper)
comparisons, so `@a:[1 2]` dumps as `(and a >= 1, a <= 2)` and
`@a:[(1 (2]` as `(and a > 1, a < 2)`. -/
theorem range_both_finite_builds_two_child_and :
    (∀ (f : String) (lo hi : NumLit),
      buildRange f (.incl lo) (.incl hi) =
        .andExpr [.numericCompare .GET f lo, .numericCompare .LET f hi] ∧
      buildRange f (.excl lo) (.incl hi) =
        .andExpr [.numericCompare .GT f lo, .numericCompare .LET f hi] ∧
      buildRange f (.incl lo) (.excl hi) =
        .andExpr [.numericCompare .GET f lo, .numericCompare .LT f hi] ∧
      buildRange f (.excl lo) (.excl hi) =
        .andExpr [.numericCompare .GT f lo, .numericCompare .LT f hi]) ∧
    ParseDump "@a:[1 2]" = .ok "(and a >= 1, a <= 2)" ∧
    ParseDump "@a:[(1 (2]" = .ok "(and a > 1, a < 2)" :=
  ⟨fun _ _ _ => ⟨rfl, rfl, rfl, rfl⟩, by decide, by decide⟩

/-- Claim C2: an infinite bound contributes no comparison node — with one
finite bound the result is that single comparison, unwrapped, and with two
infinite bounds it is `BoolLiteral(true)`; so `@a:[inf 2]` dumps as
`a <= 2` and `@a:[-inf +inf]` as `true`. -/
theorem range_infinite_bound_collapses :
    (∀ (f : String) (n : NumLit),
      buildRange f .inf (.incl n) = .numericCompare .LET f n ∧
      buildRange f .inf (.excl n) = .numericCompare .LT f n ∧
      buildRange f (.incl n) .inf = .numericCompare .GET f n ∧
      buildRange f (.excl n) .inf = .numericCompare .GT f n) ∧
    (∀ f : String, buildRange f .inf .inf = .boolLiteral true) ∧
    ParseDump "@a:[inf 2]" = .ok "a <= 2" ∧
    ParseDump "@a:[1 inf]" = .ok "a >= 1" ∧
    ParseDump "@a:[-inf +inf]" = .ok "true" :=
  ⟨fun _ _ => ⟨rfl, rfl, rfl, rfl⟩, fun _ => rfl, by decide, by decide, by decide⟩

/-- Claim C3: `Negative` (EQ↔NE, LT↔GTE, LTE↔GT) and `Flip` (fixes EQ, NE;
LT↔GT, LTE↔GTE) are involutions on the six comparison operators, and
`ToOperator ∘ FromOperator` is the identity on the six valid symbols.
(`LET`/`GET` are the source's names for `<=`/`>=`.) -/
theorem op_algebra_involutions_and_symbol_roundtrip :
    (∀ op : Op, Negative (Negative op) = op) ∧
    (∀ op : Op, Flip (Flip op) = op) ∧
    (Negative .EQ = .NE ∧ Negative .NE = .EQ ∧ Negative .LT = .GET ∧
      Negative .LET = .GT ∧ Negative .GT = .LET ∧ Negative .GET = .LT) ∧
    (Flip .EQ = .EQ ∧ Flip .NE = .NE ∧ Flip .LT = .GT ∧ Flip .GT = .LT ∧
      Flip .LET = .GET ∧ Flip .GET = .LET) ∧
    ((FromOperator "=").map ToOperator = some "=" ∧
      (FromOperator "!=").map ToOperator = some "!=" ∧
      (FromOperator "<").map ToOperator = some "<" ∧
      (FromOperator "<=").map ToOperator = some "<=" ∧
      (FromOperator ">").map ToOperator = some ">" ∧
      (FromOperator ">=").map ToOperator = some ">=") :=
  ⟨fun op => by cases op <;> rfl, fun op => by cases op <;> rfl,
    by decide, by decide, by decide⟩

/-- Claim C4: implicit AND (space) binds tighter than `|`, and parentheses
override both: `@a:[1 inf] @b:[inf 2]| @c:[(3 inf]` groups as an OR of an
AND-group with a lone atom, while the parenthesized variant groups as an
AND whose first child is an OR. -/
theorem precedence_space_tighter_than_or_parens_override :
    ParseDump "@a:[1 inf] @b:[inf 2]| @c:[(3 inf]" =
      .ok "(or (and a >= 1, b <= 2), c > 3)" ∧
    ParseDump "(@a:[1 inf] | @b:[inf 2]) @c:[(3 inf]" =
      .ok "(and (or a >= 1, b <= 2), c > 3)" ∧
    ParseDump "@a:[1 inf] | @b:[inf 2] @c:[(3 inf]" =
      .ok "(or a >= 1, (and b <= 2, c > 3))" :=
  ⟨by decide, by decide, by decide⟩

/-- Claim C5: a tag predicate expands to one `TagContainExpr` per tag — a
single tag stays unwrapped, two or more fold into one `OrExpr` in source
order — and no singleton `And`/`Or` wrapper is ever emitted for a lone
term. -/
theorem tag_expansion_and_singleton_unwrap :
    (∀ (f t : String), buildTags f [t] = .tagContain f t) ∧
    (∀ (f t1 t2 : String) (ts : List String),
      buildTags f (t1 :: t2 :: ts) =
        .orExpr ((t1 :: t2 :: ts).map fun t => .tagContain f t)) ∧
    (∀ e : QueryExpr, mkAnd [e] = e) ∧
    (∀ e : QueryExpr, mkOr [e] = e) ∧
    ParseDump "@a:{x}" = .ok "a hastag \"x\"" ∧
    ParseDump "@a:{x|y}" = .ok "(or a hastag \"x\", a hastag \"y\")" ∧
    ParseDump (String.mk
        ['@', 'a', ':', '{', '"', 'x', '"', ' ', '|', ' ', '"', 'y', '"', '}']) =
      .ok "(or a hastag \"x\", a hastag \"y\")" :=
  ⟨fun _ _ => rfl, fun _ _ _ _ => rfl, fun _ => rfl, fun _ => rfl,
    by decide, by decide, by decide⟩

/-- Claim C6: every non-grammatical input — empty input, a bare or
incomplete field reference, malformed bracket or tag bodies, a bracket
body without exactly two bounds, and trailing unconsumed input — fails
with exactly the fixed message `invalid syntax`; the `Except` result is
disjoint, so no partial tree accompanies a failure. -/
theorem invalid_inputs_fail_with_fixed_message :
    ParseDump "" = .error "invalid syntax" ∧
    ParseDump "a" = .error "invalid syntax" ∧
    ParseDump "@a" = .error "invalid syntax" ∧
    ParseDump "@a:" = .error "invalid syntax" ∧
    ParseDump "@a:[]" = .error "invalid syntax" ∧
    ParseDump "@a:[1]" = .error "invalid syntax" ∧
    ParseDump "@a:[1 2 3]" = .error "invalid syntax" ∧
    ParseDump "@a:{}" = .error "invalid syntax" ∧
    ParseDump "@a:{x|}" = .error "invalid syntax" ∧
    ParseDump "@a:{x}|" = .error "invalid syntax" ∧
    ParseDump "@a:{x} -" = .error "invalid syntax" :=
  ⟨by decide, by decide, by decide, by decide, by decide, by decide,
    by decide, by decide, by decide, by decide, by decide⟩

/-- Claim C7 counterexample: the claim asserts `@a:[(inf 1]` — an infinite
lower bound carrying the `(` prefix — is accepted, but the parser (and the
repository's own test, `redis_query_parser_test.cc:45`) rejects it. -/
theorem exclusive_inf_bound_rejected :
    ParseDump "@a:[(inf 1]" = .error "invalid syntax" := by decide

/-- Claim C7 as amended: each range bound is a signed number or
`inf`/`+inf`/`-inf`, and a finite numeric bound may carry the `(` prefix
to become exclusive; the `(` prefix is not permitted on an infinite bound,
so `@a:[(inf 1]` is a syntax error while `@a:[(1 (2]` and `@a:[(1 +inf]`
parse. -/
theorem exclusive_marker_only_on_finite_bounds :
    ParseDump "@a:[(1 (2]" = .ok "(and a > 1, a < 2)" ∧
    ParseDump "@a:[(1 +inf]" = .ok "a > 1" ∧
    ParseDump "@a:[(inf 1]" = .error "invalid syntax" ∧
    ParseDump "@a:[((1 2]" = .error "invalid syntax" :=
  ⟨by decide, by decide, by decide, by decide⟩

/-- Folding of the separating blank into the `sortby` keyword. -/
theorem space_append_sortby (x : String) :
    " " ++ ("sortby " ++ x) = " sortby " ++ x := by
  rw [← String.append_assoc]; rfl

/-- Folding of the separating blank into the `limit` keyword. -/
theorem space_append_limit (x : String) :
    " " ++ ("limit " ++ x) = " limit " ++ x := by
  rw [← String.append_assoc]; rfl

/-- Claim C9: `SearchStmt::Dump` renders `<select> from <index>` followed,
in this fixed order, by ` where <query>` only when a query is present,
then ` sortby <field>, asc|desc` only when a sort spec is present, then
` limit <offset>, <count>` only when a limit is present; an empty
projection renders `select *` and a non-empty one comma-joins its
fields. -/
theorem search_stmt_dump_matches_spec_render :
    (∀ s : SearchStmt, s.Dump = specStmtRender s) ∧
    SelectExpr.Dump ⟨[]⟩ = "select *" ∧
    (∀ (f : String) (fs : List String),
      SelectExpr.Dump ⟨f :: fs⟩ = "select " ++ joinComma (f :: fs)) := by
  refine ⟨fun s => ?_, rfl, fun f fs => rfl⟩
  obtain ⟨sel, idx, q, li, sb⟩ := s
  cases q <;> cases li <;> cases sb <;>
    simp [SearchStmt.Dump, specStmtRender, SortBy.Dump, Limit.Dump,
      String.append_assoc, space_append_sortby, space_append_limit]

/-! ### Canonical renders are not re-parseable (claim C8) -/

/-- Appending strings concatenates their character lists. -/
theorem strDataAppend (a b : String) : (a ++ b).data = a.data ++ b.data := rfl

/-- An identifier character is not whitespace. -/
theorem identChar_not_ws (c : Char) (h : isIdentChar c = true) :
    isWsChar c = false := by
  by_contra hw
  rw [Bool.not_eq_false] at hw
  simp only [isWsChar, Bool.or_eq_true, decide_eq_true_eq] at hw
  rcases hw with ((h1 | h1) | h1) | h1 <;> subst h1 <;> exact absurd h (by decide)

/-- An identifier character cannot begin an atom. -/
theorem identChar_ne_atom_start (c : Char) (h : isIdentChar c = true) :
    c ≠ '-' ∧ c ≠ '(' ∧ c ≠ '*' ∧ c ≠ '@' := by
  refine ⟨?_, ?_, ?_, ?_⟩ <;> intro he <;> subst he <;> exact absurd h (by decide)

/-- `parseAtom` fails at once on a non-whitespace character that cannot
begin an atom. -/
theorem parseAtom_fail_head (fuel : Nat) (c : Char) (l : List Char)
    (hw : isWsChar c = false) (h1 : c ≠ '-') (h2 : c ≠ '(') (h3 : c ≠ '*')
    (h4 : c ≠ '@') : parseAtom fuel (c :: l) = none := by
  cases fuel with
  | zero => rfl
  | succ f =>
    have hws : skipWs (c :: l) = c :: l := by simp [skipWs, hw]
    simp [parseAtom, hws, h1, h2, h3, h4]

/-- `parseAndGroup` fails at once on a non-whitespace character that
cannot begin an atom. -/
theorem parseAndGroup_fail_head (fuel : Nat) (c : Char) (l : List Char)
    (hw : isWsChar c = false) (h1 : c ≠ '-') (h2 : c ≠ '(') (h3 : c ≠ '*')
    (h4 : c ≠ '@') : parseAndGroup fuel (c :: l) = none := by
  cases fuel with
  | zero => rfl
  | succ f => simp [parseAndGroup, parseAtom_fail_head f c l hw h1 h2 h3 h4]

/-- `parseQuery` fails at once on a non-whitespace character that cannot
begin an atom. -/
theorem parseQuery_fail_head (fuel : Nat) (c : Char) (l : List Char)
    (hw : isWsChar c = false) (h1 : c ≠ '-') (h2 : c ≠ '(') (h3 : c ≠ '*')
    (h4 : c ≠ '@') : parseQuery fuel (c :: l) = none := by
  cases fuel with
  | zero => rfl
  | succ f => simp [parseQuery, parseAndGroup_fail_head f c l hw h1 h2 h3 h4]

/-- `parseQuery` fails on `(` followed by a non-whitespace character that
cannot begin an atom (the parenthesized sub-query fails at once). -/
theorem parseQuery_fail_paren (fuel : Nat) (c : Char) (l : List Char)
    (hw : isWsChar c = false) (h1 : c ≠ '-') (h2 : c ≠ '(') (h3 : c ≠ '*')
    (h4 : c ≠ '@') : parseQuery fuel ('(' :: c :: l) = none := by
  cases fuel with
  | zero => rfl
  | succ f =>
    cases f with
    | zero => rfl
    | succ g =>
      cases g with
      | zero => rfl
      | succ k =>
        have hws : skipWs ('(' :: c :: l) = '(' :: c :: l := by
          simp [skipWs, isWsChar]
        simp [parseQuery, parseAndGroup, parseAtom, hws,
          parseQuery_fail_head k c l hw h1 h2 h3 h4]

/-- A field name produced by `parseField` begins with an identifier
character. -/
theorem parseField_headIdent (l : List Char) (f : String) (r : List Char)
    (h : parseField l = some (f, r)) : headIdentB f = true := by
  match l with
  | [] => simp [parseField] at h
  | c :: t =>
    simp only [parseField] at h
    by_cases hc : isIdentChar c = true
    · rw [if_pos hc] at h
      cases h
      exact hc
    · rw [if_neg hc] at h
      cases h

/-- Ranges built over a `parseField`-produced name satisfy `TopOK`. -/
theorem buildRange_TopOK (f : String) (hf : headIdentB f = true)
    (lo hi : Bound) : TopOK (buildRange f lo hi) := by
  cases lo <;> cases hi <;> simp [buildRange, TopOK, hf]

/-- Tag expansions over a `parseField`-produced name satisfy `TopOK`. -/
theorem buildTags_TopOK (f : String) (hf : headIdentB f = true)
    (ts : List String) : TopOK (buildTags f ts) := by
  match ts with
  | [] => simp [buildTags, TopOK]
  | [t] => simpa [buildTags, TopOK] using hf
  | t1 :: t2 :: rest => simp [buildTags, TopOK]

/-- `parseRangePred` only returns `TopOK` expressions. -/
theorem parseRangePred_TopOK (f : String) (l : List Char) (e : QueryExpr)
    (r : List Char) (hf : headIdentB f = true)
    (h : parseRangePred f l = some (e, r)) : TopOK e := by
  unfold parseRangePred at h
  split at h
  · split at h
    · split at h
      · cases h
        exact buildRange_TopOK f hf _ _
      · cases h
    · cases h
  · cases h

/-- `parseTagPred` only returns `TopOK` expressions. -/
theorem parseTagPred_TopOK (fuel : Nat) (f : String) (l : List Char)
    (e : QueryExpr) (r : List Char) (hf : headIdentB f = true)
    (h : parseTagPred fuel f l = some (e, r)) : TopOK e := by
  unfold parseTagPred at h
  split at h
  · dsimp only at h
    split at h
    · cases h
      exact buildTags_TopOK f hf _
    · cases h
  · cases h

/-- `mkAnd` of a `TopOK`-headed nonempty list is `TopOK`. -/
theorem mkAnd_TopOK (e : QueryExpr) (es : List QueryExpr) (h : TopOK e) :
    TopOK (mkAnd (e :: es)) := by
  cases es with
  | nil => simpa [mkAnd] using h
  | cons a t => simp [mkAnd, TopOK]

/-- `mkOr` of a `TopOK`-headed nonempty list is `TopOK`. -/
theorem mkOr_TopOK (e : QueryExpr) (es : List QueryExpr) (h : TopOK e) :
    TopOK (mkOr (e :: es)) := by
  cases es with
  | nil => simpa [mkOr] using h
  | cons a t => simp [mkOr, TopOK]

/-- Every expression produced by any of the five descent functions
satisfies `TopOK`, at every fuel level. -/
theorem parser_TopOK (fuel : Nat) :
    (∀ l e r, parseAtom fuel l = some (e, r) → TopOK e) ∧
    (∀ l es r, parseAtomsMore fuel l = (es, r) → ∀ e ∈ es, TopOK e) ∧
    (∀ l e r, parseAndGroup fuel l = some (e, r) → TopOK e) ∧
    (∀ l es r, parseOrRest fuel l = (es, r) → ∀ e ∈ es, TopOK e) ∧
    (∀ l e r, parseQuery fuel l = some (e, r) → TopOK e) := by
  induction fuel with
  | zero =>
    refine ⟨fun l e r h => by simp [parseAtom] at h,
      fun l es r h => ?_,
      fun l e r h => by simp [parseAndGroup] at h,
      fun l es r h => ?_,
      fun l e r h => by simp [parseQuery] at h⟩
    · simp only [parseAtomsMore] at h
      cases h
      intro e he
      cases he
    · simp only [parseOrRest] at h
      cases h
      intro e he
      cases he
  | succ f ih =>
    obtain ⟨ihAtom, ihMore, ihAnd, ihOr, ihQuery⟩ := ih
    refine ⟨?_, ?_, ?_, ?_, ?_⟩
    · intro l e r h
      simp only [parseAtom] at h
      split at h
      · cases h
      · split_ifs at h with hneg hpar hstar hat
        · rw [Option.map_eq_some'] at h
          obtain ⟨a, ha, hae⟩ := h
          cases hae
          exact True.intro
        · split at h
          · rename_i e1 r1 hq
            split at h
            · cases h
              exact ihQuery _ _ _ hq
            · cases h
          · cases h
        · cases h
          exact True.intro
        · split at h
          · rename_i fname r1 hfield
            split at h
            · split at h
              · exact parseRangePred_TopOK _ _ _ _
                  (parseField_headIdent _ _ _ hfield) h
              · exact parseTagPred_TopOK _ _ _ _ _
                  (parseField_headIdent _ _ _ hfield) h
              · cases h
            · cases h
          · cases h
    · intro l es r h
      simp only [parseAtomsMore] at h
      split at h
      · rename_i e1 r1 hp
        cases h
        intro e he
        rcases List.mem_cons.mp he with rfl | hm
        · exact ihAtom _ _ _ hp
        · exact ihMore _ _ _ rfl e hm
      · cases h
        intro e he
        cases he
    · intro l e r h
      simp only [parseAndGroup] at h
      split at h
      · rename_i e1 r1 hp
        cases h
        exact mkAnd_TopOK _ _ (ihAtom _ _ _ hp)
      · cases h
    · intro l es r h
      simp only [parseOrRest] at h
      split at h
      · split at h
        · rename_i e1 r1 hp
          cases h
          intro e he
          rcases List.mem_cons.mp he with rfl | hm
          · exact ihAnd _ _ _ hp
          · exact ihOr _ _ _ rfl e hm
        · cases h
          intro e he
          cases he
      · cases h
        intro e he
        cases he
    · intro l e r h
      simp only [parseQuery] at h
      split at h
      · rename_i e1 r1 hp
        cases h
        exact mkOr_TopOK _ _ (ihAnd _ _ _ hp)
      · cases h

/-- The canonical render of any `TopOK` expression is rejected by the
query parser at every fuel level: its first character can never begin an
atom, and the renders of `AndExpr`/`OrExpr` start with `(and `/`(or `,
whose interior can begin no atom either. -/
theorem parseQuery_fail_on_dump (e : QueryExpr) (h : TopOK e) (fuel : Nat) :
    parseQuery fuel (Dump e).data = none := by
  cases e with
  | boolLiteral b =>
    cases b with
    | false =>
      have hd : (Dump (QueryExpr.boolLiteral false)).data =
          'f' :: ['a', 'l', 's', 'e'] := rfl
      rw [hd]
      exact parseQuery_fail_head fuel 'f' _ (by decide) (by decide) (by decide)
        (by decide) (by decide)
    | true =>
      have hd : (Dump (QueryExpr.boolLiteral true)).data =
          't' :: ['r', 'u', 'e'] := rfl
      rw [hd]
      exact parseQuery_fail_head fuel 't' _ (by decide) (by decide) (by decide)
        (by decide) (by decide)
  | tagContain f t =>
    have hh : headIdentB f = true := h
    rcases hf : f.data with _ | ⟨c, cs⟩
    · simp only [headIdentB, hf] at hh
      exact absurd hh (by decide)
    · simp only [headIdentB, hf] at hh
      have hd : (Dump (QueryExpr.tagContain f t)).data =
          c :: (cs ++ " hastag \"".data ++ (escapeString t).data ++ "\"".data) := by
        show (((f ++ " hastag \"") ++ escapeString t) ++ "\"").data = _
        rw [strDataAppend, strDataAppend, strDataAppend, hf]
        simp [List.append_assoc]
      rw [hd]
      exact parseQuery_fail_head fuel c _ (identChar_not_ws c hh)
        (identChar_ne_atom_start c hh).1 (identChar_ne_atom_start c hh).2.1
        (identChar_ne_atom_start c hh).2.2.1 (identChar_ne_atom_start c hh).2.2.2
  | numericCompare op f n =>
    have hh : headIdentB f = true := h
    rcases hf : f.data with _ | ⟨c, cs⟩
    · simp only [headIdentB, hf] at hh
      exact absurd hh (by decide)
    · simp only [headIdentB, hf] at hh
      have hd : (Dump (QueryExpr.numericCompare op f n)).data =
          c :: (cs ++ " ".data ++ (ToOperator op).data ++ " ".data ++
            (dumpNum n).data) := by
        show ((((f ++ " ") ++ ToOperator op) ++ " ") ++ dumpNum n).data = _
        rw [strDataAppend, strDataAppend, strDataAppend, strDataAppend, hf]
        simp [List.append_assoc]
      rw [hd]
      exact parseQuery_fail_head fuel c _ (identChar_not_ws c hh)
        (identChar_ne_atom_start c hh).1 (identChar_ne_atom_start c hh).2.1
        (identChar_ne_atom_start c hh).2.2.1 (identChar_ne_atom_start c hh).2.2.2
  | notExpr inner =>
    have hd : (Dump (QueryExpr.notExpr inner)).data =
        'n' :: ('o' :: 't' :: ' ' :: (Dump inner).data) := by
      show ("not " ++ Dump inner).data = _
      rw [strDataAppend]
      rfl
    rw [hd]
    exact parseQuery_fail_head fuel 'n' _ (by decide) (by decide) (by decide)
      (by decide) (by decide)
  | andExpr l =>
    have hd : (Dump (QueryExpr.andExpr l)).data =
        '(' :: 'a' :: (('n' :: 'd' :: ' ' :: (dumpJoin l).data) ++ [')']) := by
      show (("(and " ++ dumpJoin l) ++ ")").data = _
      rw [strDataAppend, strDataAppend]
      rfl
    rw [hd]
    exact parseQuery_fail_paren fuel 'a' _ (by decide) (by decide) (by decide)
      (by decide) (by decide)
  | orExpr l =>
    have hd : (Dump (QueryExpr.orExpr l)).data =
        '(' :: 'o' :: (('r' :: ' ' :: (dumpJoin l).data) ++ [')']) := by
      show (("(or " ++ dumpJoin l) ++ ")").data = _
      rw [strDataAppend, strDataAppend]
      rfl
    rw [hd]
    exact parseQuery_fail_paren fuel 'o' _ (by decide) (by decide) (by decide)
      (by decide) (by decide)

/-- Successful parses satisfy `TopOK`. -/
theorem ParseToIR_TopOK (s : String) (e : QueryExpr)
    (h : ParseToIR s = .ok e) : TopOK e := by
  unfold ParseToIR at h
  dsimp only at h
  split at h
  · rename_i e1 r1 hq
    split_ifs at h
    cases h
    exact (parser_TopOK _).2.2.2.2 _ _ _ hq
  · cases h

/-- Claim C8 counterexample: `@a:[1 2]` parses and its canonical render is
`(and a >= 1, a <= 2)`, but re-parsing that render fails — the string
produced by `Dump` after a successful `Parse` is not itself accepted by
`Parse`, so `Dump(Parse(Dump(Parse(s))))` is an error, not
`Dump(Parse(s))`. -/
theorem roundtrip_fails_at_concrete_input :
    ParseDump "@a:[1 2]" = .ok "(and a >= 1, a <= 2)" ∧
    ParseDump "(and a >= 1, a <= 2)" = .error "invalid syntax" :=
  ⟨by decide, by decide⟩

/-- Claim C8 as amended: for every input `s` accepted by `Parse`, the
canonical render `Dump(Parse(s))` is a fixed string determined by the
parsed tree, but it is never itself in the query grammar: re-parsing any
canonical render fails with `invalid syntax`, so the parse-then-dump
round trip cannot be iterated. -/
theorem canonical_render_never_reparses (s : String) (e : QueryExpr)
    (h : ParseToIR s = .ok e) :
    ParseToIR (Dump e) = .error "invalid syntax" := by
  have ht := ParseToIR_TopOK s e h
  unfold ParseToIR
  dsimp only
  rw [parseQuery_fail_on_dump e ht]

/-- Witness for the amended C8: instantiated at `@a:[1 2]` and its parsed
tree. -/
theorem canonical_render_never_reparses_witness :
    ParseToIR (Dump (QueryExpr.andExpr
      [QueryExpr.numericCompare .GET "a" ⟨false, ['1'], []⟩,
       QueryExpr.numericCompare .LET "a" ⟨false, ['2'], []⟩])) =
      .error "invalid syntax" :=
  canonical_render_never_reparses "@a:[1 2]" _ rfl

/-- Claim C10: the checked downcast `Node::As<T>` either succeeds — the
returned pointer owns the node and the original pointer is released — or
yields no match — the returned pointer is null and the original pointer
still owns the very same node; the node is never destroyed and the
mismatch path has no other effect. -/
theorem as_downcast_success_or_no_match (target : CastTarget)
    (orig : UniquePtr) (obj : NodeObj) (h : orig.ptr = some obj) :
    (derivedFrom obj.ty target = true →
      As target orig = (⟨some obj⟩, ⟨none⟩)) ∧
    (derivedFrom obj.ty target = false →
      As target orig = (⟨none⟩, orig)) := by
  obtain ⟨p⟩ := orig
  cases h
  constructor <;> intro hd <;> simp [As, hd]

/-- Witness for C10: a `BoolLiteral` node casts successfully to the
`QueryExpr` base (ownership moves), and fails to cast to `Limit` (the
original keeps the node). -/
theorem as_downcast_success_or_no_match_witness :
    As .queryExpr ⟨some ⟨.BoolLiteralT, 7⟩⟩ =
      (⟨some ⟨.BoolLiteralT, 7⟩⟩, ⟨none⟩) ∧
    As (.concrete .LimitT) ⟨some ⟨.BoolLiteralT, 7⟩⟩ =
      (⟨none⟩, ⟨some ⟨.BoolLiteralT, 7⟩⟩) :=
  ⟨(as_downcast_success_or_no_match .queryExpr ⟨some ⟨.BoolLiteralT, 7⟩⟩
      ⟨.BoolLiteralT, 7⟩ rfl).1 (by decide),
    (as_downcast_success_or_no_match (.concrete .LimitT)
      ⟨some ⟨.BoolLiteralT, 7⟩⟩ ⟨.BoolLiteralT, 7⟩ rfl).2 (by decide)⟩

end kqir
